import Mathlib

/-!
# Verification of the sherpa parameter expression system

A shallow embedding of `sherpa/models/parameter.py`: the `Parameter` data
model (value, soft/hard limits, default snapshot, frozen flag, link), the
shared limit-setter protocol (`_make_set_limit`), the link setter with its
cycle checks, `reset`, the batch `set()` helper, and the
`CompositeParameter` family (constant / unary / binary expression nodes
with flattening via `_get_parts` and lazy `eval`).

Modelling conventions:
* Numeric values (`SherpaFloat`) are modelled as rationals `ℚ`; the claims
  under study are about control flow and exact comparisons, not rounding.
  `hugeval` is the exact value of the 32-bit float maximum used by the code.
* Python object identity is modelled by indexing parameters in a `Store`
  (`Nat → PState`); a link expression refers to other parameters by index.
* A raised `ParameterErr` is a `some err` first component of an operation's
  result; crucially the returned store is the store *as mutated so far*,
  because a Python exception does not roll back prior attribute writes.
* The unbounded `while` walk in `_set_link` is given explicit fuel; a
  `none` result of `cycleWalk` (or the `nofuel` error of `evalExpr`)
  marks walks/evaluations longer than the supplied fuel.
* Display-only attributes (`units`, `hidden`, `aliases`) are not modelled.
-/

namespace Sherpa

/-- Which bound is violated in a `ParameterErr('edge', ...)`. -/
inductive BoundKind where
  | minimum
  | maximum
  | hardMinimum
  | hardMaximum
deriving DecidableEq, Repr

/-- Errors: `sherpa.utils.err.ParameterErr`, restricted to the reason codes raised
by `parameter.py`.  `nofuel` is a modelling artifact marking walks or
evaluations that exceed the explicit fuel (the Python code would not
terminate there). -/
inductive Err where
  | edge (fullname : String) (kind : BoundKind) (bound : ℚ)
  | notlink
  | frozennolink (fullname : String)
  | linkcycle
  | alwaysfrozen (fullname : String)
  | nofuel
deriving DecidableEq, Repr

/-- Unary ufuncs used by `UnaryOpParameter` (`__neg__`, `__abs__`). -/
inductive UOp where
  | neg
  | abs
deriving DecidableEq, Repr

/-- Binary ufuncs used by `BinaryOpParameter` (the subset exercised by the
claims: `__add__`, `__sub__`, `__mul__`, `__truediv__`). -/
inductive BOp where
  | add
  | sub
  | mul
  | div
deriving DecidableEq, Repr

def applyUOp : UOp → ℚ → ℚ
  | .neg, x => -x
  | .abs, x => |x|

def applyBOp : BOp → ℚ → ℚ → ℚ
  | .add, a, b => a + b
  | .sub, a, b => a - b
  | .mul, a, b => a * b
  | .div, a, b => a / b

/-- A parameter expression: either a leaf `Parameter` (referenced by its
store index, modelling Python object identity) or a node of the
`CompositeParameter` family (`ConstantParameter`, `UnaryOpParameter`,
`BinaryOpParameter`). -/
inductive Expr where
  | ref (id : Nat)
  | const (value : ℚ)
  | unary (op : UOp) (arg : Expr)
  | binary (op : BOp) (lhs rhs : Expr)
deriving DecidableEq, Repr

/-- The mutable state of one `Parameter` object.  Field names follow the
underscored attributes of the Python class. -/
@[ext]
structure PState where
  modelname : String
  name : String
  fullname : String
  val : ℚ
  default_val : ℚ
  min : ℚ
  max : ℚ
  default_min : ℚ
  default_max : ℚ
  hard_min : ℚ
  hard_max : ℚ
  frozen : Bool
  alwaysfrozen : Bool
  guessed : Bool
  link : Option Expr
deriving DecidableEq, Repr

/-- The heap of parameter objects, indexed by identity. -/
abbrev Store := Nat → PState

def updateStore (s : Store) (i : Nat) (st : PState) : Store :=
  fun j => if j = i then st else s j

@[simp] theorem updateStore_same (s : Store) (i : Nat) (st : PState) :
    updateStore s i st i = st := by
  simp [updateStore]

@[simp] theorem updateStore_other (s : Store) (i j : Nat) (st : PState)
    (h : j ≠ i) : updateStore s i st j = s j := by
  simp [updateStore, h]

instance {ε α : Type _} [DecidableEq ε] [DecidableEq α] :
    DecidableEq (Except ε α) := fun x y =>
  match x, y with
  | .ok a, .ok b =>
    if h : a = b then .isTrue (by rw [h])
    else .isFalse (by intro hc; cases hc; exact h rfl)
  | .error a, .error b =>
    if h : a = b then .isTrue (by rw [h])
    else .isFalse (by intro hc; cases hc; exact h rfl)
  | .ok _, .error _ => .isFalse (by intro hc; cases hc)
  | .error _, .ok _ => .isFalse (by intro hc; cases hc)

/-- One layer of `Parameter._get_val` / `CompositeParameter.eval`, by
structural recursion over the expression.  A composite node returns its
`eval()` with no range check; a leaf with `link is None` returns the
stored `_val`; a linked leaf evaluates `link.val` through the supplied
continuation `evalLink` and raises `ParameterErr('edge', ...)` when the
result falls outside the leaf's soft limits (issue #742 check). -/
def evalExprAux (evalLink : Expr → Except Err ℚ) (s : Store) :
    Expr → Except Err ℚ
  | .const v => .ok v
  | .unary op a =>
    match evalExprAux evalLink s a with
    | .error e => .error e
    | .ok x => .ok (applyUOp op x)
  | .binary op l r =>
    match evalExprAux evalLink s l with
    | .error e => .error e
    | .ok lx =>
      match evalExprAux evalLink s r with
      | .error e => .error e
      | .ok rx => .ok (applyBOp op lx rx)
  | .ref i =>
    match (s i).link with
    | none => .ok (s i).val
    | some le =>
      match evalLink le with
      | .error e => .error e
      | .ok x =>
        if x < (s i).min then
          .error (.edge (s i).fullname .minimum (s i).min)
        else if x > (s i).max then
          .error (.edge (s i).fullname .maximum (s i).max)
        else .ok x

/-- Expression evaluation; fuel is consumed only when following a leaf's
link, so an acyclic link graph evaluates with fuel bounding its link
depth. -/
def evalExpr : Nat → Store → Expr → Except Err ℚ
  | 0, s, e => evalExprAux (fun _ => .error .nofuel) s e
  | fuel + 1, s, e => evalExprAux (fun le => evalExpr fuel s le) s e

/-- Reading `p.val` on the parameter at index `i`. -/
def getVal (fuel : Nat) (s : Store) (i : Nat) : Except Err ℚ :=
  evalExpr fuel s (.ref i)

/-- Setter `Parameter._set_val` for a non-`Parameter` (numeric) argument: first
reset the link, then validate against the soft limits, then store the new
value into both `_val` and `_default_val`.  (When the argument is itself a
`Parameter`, `_set_val` instead delegates to the `link` setter, `setLink`
below.)  On error the returned store keeps the mutations performed before
the raise: the link reset is NOT rolled back. -/
def set_val (s : Store) (i : Nat) (x : ℚ) : Option Err × Store :=
  -- Reset link
  let s1 := updateStore s i { s i with link := none }
  -- Validate new value
  if x < (s1 i).min then
    (some (.edge (s1 i).fullname .minimum (s1 i).min), s1)
  else if x > (s1 i).max then
    (some (.edge (s1 i).fullname .maximum (s1 i).max), s1)
  else
    (none, updateStore s1 i { s1 i with val := x, default_val := x })

/-- Setter `Parameter._set_default_val` for a numeric argument: reset the link,
validate against the *current* soft limits `min`/`max`, store into
`_default_val` only. -/
def set_default_val (s : Store) (i : Nat) (x : ℚ) : Option Err × Store :=
  let s1 := updateStore s i { s i with link := none }
  if x < (s1 i).min then
    (some (.edge (s1 i).fullname .minimum (s1 i).min), s1)
  else if x > (s1 i).max then
    (some (.edge (s1 i).fullname .maximum (s1 i).max), s1)
  else
    (none, updateStore s1 i { s1 i with default_val := x })

/-- Which underscored attribute a `_make_set_limit(name)` setter writes. -/
inductive LimitField where
  | lmin
  | lmax
  | ldmin
  | ldmax
deriving DecidableEq, Repr

def setLimitField : LimitField → PState → ℚ → PState
  | .lmin, st, v => { st with min := v }
  | .lmax, st, v => { st with max := v }
  | .ldmin, st, v => { st with default_min := v }
  | .ldmax, st, v => { st with default_max := v }

/-- The shared limit setter produced by `_make_set_limit`: hard-limit
checks first; then, only when the object has finished construction
(`initialized`, mirroring the `_NoNewAttributesAfterInit__initialized`
guard) and the field is `_min`/`_max`, the auto-repair rule: a new minimum
above the current `val` (resp. a new maximum below it) assigns the new
bound through the `val` property and logs a warning (third component
`true`); finally the bound is stored.  The `val` read or the nested `val`
assignment may raise, aborting the call with the mutations made so far. -/
def set_limit (f : LimitField) (initialized : Bool) (fuel : Nat)
    (s : Store) (i : Nat) (v : ℚ) : Option Err × Store × Bool :=
  if v < (s i).hard_min then
    (some (.edge (s i).fullname .hardMinimum (s i).hard_min), s, false)
  else if v > (s i).hard_max then
    (some (.edge (s i).fullname .hardMaximum (s i).hard_max), s, false)
  else if initialized then
    match f with
    | .lmin =>
      match getVal fuel s i with
      | .error e => (some e, s, false)
      | .ok cur =>
        if v > cur then
          match set_val s i v with
          | (some e, s') => (some e, s', false)
          | (none, s') => (none, updateStore s' i (setLimitField f (s' i) v), true)
        else (none, updateStore s i (setLimitField f (s i) v), false)
    | .lmax =>
      match getVal fuel s i with
      | .error e => (some e, s, false)
      | .ok cur =>
        if v < cur then
          match set_val s i v with
          | (some e, s') => (some e, s', false)
          | (none, s') => (none, updateStore s' i (setLimitField f (s' i) v), true)
        else (none, updateStore s i (setLimitField f (s i) v), false)
    | _ => (none, updateStore s i (setLimitField f (s i) v), false)
  else (none, updateStore s i (setLimitField f (s i) v), false)

/-- Setter `Parameter._set_frozen`. -/
def set_frozen (s : Store) (i : Nat) (b : Bool) : Option Err × Store :=
  if (s i).alwaysfrozen && !b then
    (some (.alwaysfrozen (s i).fullname), s)
  else
    (none, updateStore s i { s i with frozen := b })

/-- Getter `Parameter._get_default_val`: a composite returns `eval()`; a leaf
with a link returns `link.default_val` (recursively); otherwise the stored
`_default_val`. -/
def getDefaultVal : Nat → Store → Nat → Except Err ℚ
  | fuel, s, i =>
    match (s i).link with
    | none => .ok (s i).default_val
    | some (.ref j) =>
      match fuel with
      | 0 => .error .nofuel
      | fuel' + 1 => getDefaultVal fuel' s j
    | some e => evalExpr fuel s e

/-- Method `Parameter.reset`: when `_guessed`, restore `_min`/`_max` from the
default limits and clear `_guessed`; then restore `_val` from the
`default_val` property (whose getter may evaluate a link). -/
def reset (fuel : Nat) (s : Store) (i : Nat) : Option Err × Store :=
  let st := s i
  let s1 :=
    if st.guessed then
      updateStore s i { st with min := st.default_min, max := st.default_max,
                                guessed := false }
    else s
  match getDefaultVal fuel s1 i with
  | .error e => (some e, s1)
  | .ok d => (none, updateStore s1 i { s1 i with val := d })

/-- Membership of the leaf parameter `i` in the iteration closure of an
expression: `self in link`.  For a leaf target this is Python identity
(`iter([link])`); for a composite it walks the flattened `_get_parts`
list, in which only leaf `Parameter` objects can be identical to `self`. -/
def exprHasRef : Expr → Nat → Bool
  | .ref j, i => j == i
  | .const _, _ => false
  | .unary _ a, i => exprHasRef a i
  | .binary _ l r, i => exprHasRef l i || exprHasRef r i

/-- The long-cycle detection loop of `_set_link`:
`ll = link; while isinstance(ll, Parameter): if ll == self or self in ll:
cycle = True; ll = ll.link`.  Composites have `link is None`, so the walk
only continues through leaf references.  Returns the accumulated `cycle`
flag; `none` when the walk exceeds `fuel` (the Python loop would keep
running). -/
def cycleWalk : Nat → Store → Nat → Expr → Option Bool
  | fuel, s, selfId, e =>
    let here := exprHasRef e selfId
    match e with
    | .ref j =>
      match (s j).link with
      | none => some here
      | some e' =>
        match fuel with
        | 0 => none
        | fuel' + 1 =>
          match cycleWalk fuel' s selfId e' with
          | none => none
          | some c => some (here || c)
    | _ => some here

/-- Setter `Parameter._set_link`.  `None` always unlinks.  Otherwise: reject when
`self` is always frozen (`frozennolink`); reject a short cycle, i.e.
`self in link` (`linkcycle`); then run the long-cycle walk, and when a
cycle is found sever the offending downstream link (`link.link = None` —
a real store mutation only when the target is a leaf; on a transient
composite it rewrites an already-`None` field); finally store the link.
The `notlink` check needs no model: the argument is an `Expr` by type. -/
def set_link (fuel : Nat) (s : Store) (i : Nat) (lnk : Option Expr) :
    Option Err × Store :=
  match lnk with
  | none => (none, updateStore s i { s i with link := none })
  | some e =>
    if (s i).alwaysfrozen then (some (.frozennolink (s i).fullname), s)
    else if exprHasRef e i then (some .linkcycle, s)
    else
      match cycleWalk fuel s i e with
      | none => (some .nofuel, s)
      | some cycle =>
        let s1 :=
          if cycle then
            match e with
            | .ref j => updateStore s j { s j with link := none }
            | _ => s
          else s
        (none, updateStore s1 i { s1 i with link := some e })

/-- Flattening `CompositeParameter._get_parts`: every direct part followed by, when
that part is itself composite, its own flattened parts.  A leaf or a
`ConstantParameter` contributes no nested parts, so the uniform
`p :: getParts p` matches the `append`/`extend` of the source.  Iterating
a composite yields exactly this list — the composite itself is absent. -/
def getParts : Expr → List Expr
  | .ref _ => []
  | .const _ => []
  | .unary _ a => a :: getParts a
  | .binary _ l r => (l :: getParts l) ++ (r :: getParts r)

/-- Constructor `Parameter.__init__` (identity and numeric/flag arguments; the
display-only `units`, `hidden`, `aliases` are not modelled).  The body
assigns `self.min`, `self.max`, `self.val`, `self.default_min`,
`self.default_max`, `self.default_val` through their validating setters —
the initialized flag is not yet set, so no auto-repair fires — and any
raise discards the partially built object.  The `default_*` assignments
repeat checks that the first three already passed, so a successful
construction stores `val`/`min`/`max` into both the live and the default
fields. -/
def mkParameter (modelname name : String) (v : ℚ)
    (mn mx hmn hmx : ℚ) (frozen alwaysfrozen : Bool) : Except Err PState :=
  let fullname := modelname ++ "." ++ name
  -- self.min = min  (hard-limit checks of the limit setter)
  if mn < hmn then .error (.edge fullname .hardMinimum hmn)
  else if mn > hmx then .error (.edge fullname .hardMaximum hmx)
  -- self.max = max
  else if mx < hmn then .error (.edge fullname .hardMinimum hmn)
  else if mx > hmx then .error (.edge fullname .hardMaximum hmx)
  -- self.val = val  (link reset is a no-op on the fresh object)
  else if v < mn then .error (.edge fullname .minimum mn)
  else if v > mx then .error (.edge fullname .maximum mx)
  -- self.default_min/default_max/default_val re-run the checks above
  else .ok
    { modelname := modelname, name := name, fullname := fullname
      val := v, default_val := v
      min := mn, max := mx, default_min := mn, default_max := mx
      hard_min := hmn, hard_max := hmx
      frozen := if alwaysfrozen then true else frozen
      alwaysfrozen := alwaysfrozen, guessed := false, link := none }

/-- The exact value of `numpy.finfo(numpy.float32).max`, the module-level
`hugeval` used for all default limits: `(2^24 - 1) * 2^104`. -/
def hugeval : ℚ := 340282346638528859811704183484516925440

/-- Construction with the default limit arguments
(`min=-hugeval, max=hugeval, hard_min=-hugeval, hard_max=hugeval,
frozen=False, alwaysfrozen=False`). -/
def mkParameterDefault (modelname name : String) (v : ℚ) : Except Err PState :=
  mkParameter modelname name v (-hugeval) hugeval (-hugeval) hugeval false false

/-- Sequencing of fallible mutations: a raise stops the computation and
keeps the store mutated so far. -/
def bindOp (r : Option Err × Store) (f : Store → Option Err × Store) :
    Option Err × Store :=
  match r with
  | (some e, s) => (some e, s)
  | (none, s) => f s

/-- One conditional step of `Parameter.set`: skipped when the argument is
`None` or the guard on the current store fails. -/
def condStep {α : Type} (o : Option α) (cond : Store → α → Bool)
    (act : Store → α → Option Err × Store) (s : Store) : Option Err × Store :=
  match o with
  | none => (none, s)
  | some x => if cond s x then act s x else (none, s)

/-- Run a sequence of fallible steps, stopping at the first raise. -/
def runSteps : List (Store → Option Err × Store) → Store → Option Err × Store
  | [], s => (none, s)
  | g :: rest, s => bindOp (g s) (fun s' => runSteps rest s')

/-- The four public single-limit setters, with the construction flag set
and the warning flag dropped. -/
def set_min (fuel : Nat) (s : Store) (i : Nat) (v : ℚ) : Option Err × Store :=
  ((set_limit .lmin true fuel s i v).1, (set_limit .lmin true fuel s i v).2.1)

def set_max (fuel : Nat) (s : Store) (i : Nat) (v : ℚ) : Option Err × Store :=
  ((set_limit .lmax true fuel s i v).1, (set_limit .lmax true fuel s i v).2.1)

def set_default_min (fuel : Nat) (s : Store) (i : Nat) (v : ℚ) : Option Err × Store :=
  ((set_limit .ldmin true fuel s i v).1, (set_limit .ldmin true fuel s i v).2.1)

def set_default_max (fuel : Nat) (s : Store) (i : Nat) (v : ℚ) : Option Err × Store :=
  ((set_limit .ldmax true fuel s i v).1, (set_limit .ldmax true fuel s i v).2.1)

/-- The eleven steps of `Parameter.set`, in the exact order of the
source: widen `max`/`default_max` first when growing, then
`min`/`default_min` when shrinking, then place `val`/`default_val`, then
apply all four limits unconditionally, then `frozen`. -/
def setSteps (fuel : Nat) (i : Nat) (v mn mx dv dmn dmx : Option ℚ)
    (fr : Option Bool) : List (Store → Option Err × Store) :=
  [ condStep mx (fun s m => decide ((s i).max < m)) (fun s m => set_max fuel s i m),
    condStep dmx (fun s m => decide ((s i).default_max < m)) (fun s m => set_default_max fuel s i m),
    condStep mn (fun s m => decide (m < (s i).min)) (fun s m => set_min fuel s i m),
    condStep dmn (fun s m => decide (m < (s i).default_min)) (fun s m => set_default_min fuel s i m),
    condStep v (fun _ _ => true) (fun s x => set_val s i x),
    condStep dv (fun _ _ => true) (fun s x => set_default_val s i x),
    condStep mn (fun _ _ => true) (fun s m => set_min fuel s i m),
    condStep mx (fun _ _ => true) (fun s m => set_max fuel s i m),
    condStep dmn (fun _ _ => true) (fun s m => set_default_min fuel s i m),
    condStep dmx (fun _ _ => true) (fun s m => set_default_max fuel s i m),
    condStep fr (fun _ _ => true) (fun s b => set_frozen s i b) ]

/-- Method `Parameter.set`. -/
def runSet (fuel : Nat) (s : Store) (i : Nat)
    (v mn mx dv dmn dmx : Option ℚ) (fr : Option Bool) : Option Err × Store :=
  runSteps (setSteps fuel i v mn mx dv dmn dmx fr) s

/-- Preservation of a per-parameter predicate by a fallible mutation. -/
def PresInv (P : PState → Prop) (i : Nat) (g : Store → Option Err × Store) : Prop :=
  ∀ s, P (s i) → (g s).1 = none → P ((g s).2 i)

/-- The public mutating operations on a single (unlinked or linked)
parameter that the invariant claims quantify over. -/
inductive POp where
  | opVal (x : ℚ)
  | opMin (x : ℚ)
  | opMax (x : ℚ)
  | opDefaultVal (x : ℚ)
  | opDefaultMin (x : ℚ)
  | opDefaultMax (x : ℚ)
  | opReset
  | opSet (v mn mx dv dmn dmx : Option ℚ) (fr : Option Bool)
deriving DecidableEq, Repr

def runOp (fuel : Nat) (s : Store) (i : Nat) : POp → Option Err × Store
  | .opVal x => set_val s i x
  | .opMin x => set_min fuel s i x
  | .opMax x => set_max fuel s i x
  | .opDefaultVal x => set_default_val s i x
  | .opDefaultMin x => set_default_min fuel s i x
  | .opDefaultMax x => set_default_max fuel s i x
  | .opReset => reset fuel s i
  | .opSet v mn mx dv dmn dmx fr => runSet fuel s i v mn mx dv dmn dmx fr

def runOps (fuel : Nat) (s : Store) (i : Nat) : List POp → Option Err × Store
  | [] => (none, s)
  | op :: rest => bindOp (runOp fuel s i op) (fun s' => runOps fuel s' i rest)

/-- Is the operation a `val`, `min` or `max` assignment? -/
def isValMinMax : POp → Prop
  | .opVal _ => True
  | .opMin _ => True
  | .opMax _ => True
  | _ => False

instance : DecidablePred isValMinMax := by
  intro op
  cases op <;> simp [isValMinMax] <;> infer_instance

/-- The bound invariant of the spec (§8): soft limits bracket the value
and stay within the hard limits; stated for an unlinked parameter. -/
def InvC6 (st : PState) : Prop :=
  st.link = none ∧ st.hard_min ≤ st.min ∧ st.min ≤ st.val ∧
    st.val ≤ st.max ∧ st.max ≤ st.hard_max

instance : DecidablePred InvC6 := fun st => by
  unfold InvC6; infer_instance

/-- The part of the default-snapshot invariant that the code really
maintains: every scalar field stays within the hard limits. -/
def InvC3 (st : PState) : Prop :=
  st.link = none ∧
  (st.hard_min ≤ st.min ∧ st.min ≤ st.hard_max) ∧
  (st.hard_min ≤ st.max ∧ st.max ≤ st.hard_max) ∧
  (st.hard_min ≤ st.val ∧ st.val ≤ st.hard_max) ∧
  (st.hard_min ≤ st.default_min ∧ st.default_min ≤ st.hard_max) ∧
  (st.hard_min ≤ st.default_max ∧ st.default_max ≤ st.hard_max) ∧
  (st.hard_min ≤ st.default_val ∧ st.default_val ≤ st.hard_max)

instance : DecidablePred InvC3 := fun st => by
  unfold InvC3; infer_instance

/-! ## Concrete parameter states used by witnesses and counterexamples -/

/-- A plain fully constructed parameter: `Parameter("m", "p", 5, min=0,
max=10, hard_min=-1000, hard_max=1000)`. -/
def pBase : PState :=
  { modelname := "m", name := "p", fullname := "m.p"
    val := 5, default_val := 5, min := 0, max := 10
    default_min := 0, default_max := 10, hard_min := -1000, hard_max := 1000
    frozen := false, alwaysfrozen := false, guessed := false, link := none }

/-- The parameter `Parameter("m", "p", 2, min=-1000, max=1000, hard_min=-1000,
hard_max=1000)`. -/
def pC1 : PState :=
  { pBase with val := 2, default_val := 2, min := -1000, max := 1000,
               default_min := -1000, default_max := 1000 }

/-- State `pBase` linked to the constant expression 5. -/
def pC2 : PState := { pBase with link := some (.const 5) }

/-- An unlinked copy used for the C2 witness. -/
def pC2w : PState := pBase

/-- State `pBase` with value 2 (used to drive `reset` outside the soft range). -/
def pV2 : PState := { pBase with val := 2, default_val := 2 }

/-- State `pBase` with minimum raised to 4. -/
def pMin4 : PState := { pBase with min := 4 }

/-- An always-frozen variant of `pBase`. -/
def pAF : PState := { pBase with alwaysfrozen := true, frozen := true }

/-- State `pBase` linked to the constant expression 5 (C10 witness). -/
def pL5 : PState := { pBase with link := some (.const 5) }

/-- Chain members for the long-cycle scenarios: `m.a` links to `m.b`,
`m.b` links to `m.c`, `m.c` is unlinked. -/
def pChainA : PState := { pBase with fullname := "m.a", link := some (.ref 1) }

def pChainB : PState := { pBase with fullname := "m.b", link := some (.ref 2) }

def pChainC : PState := { pBase with fullname := "m.c", link := none }

/-- The chain store `A(0) → B(1) → C(2)`. -/
def sChain : Store := fun n =>
  if n = 0 then pChainA else if n = 1 then pChainB else pChainC

/-- The chain store with `m.c` always frozen. -/
def sChainAF : Store := fun n =>
  if n = 0 then pChainA else if n = 1 then pChainB
  else { pChainC with alwaysfrozen := true, frozen := true }

/-- Leaf `m.a` for the C8 witness. -/
def pC8a : PState :=
  { pBase with fullname := "m.a", val := 2, default_val := 2,
               min := -100, max := 100 }

/-- Parameter `m.b` for the C8 witness: linked, with soft maximum 8 and a link
expression that evaluates to 9. -/
def pC8b : PState :=
  { pBase with fullname := "m.b", val := 1, default_val := 1,
               min := 0, max := 8, link := some (.const 9) }

def sC8 : Store := fun n => if n = 0 then pC8a else pC8b

/-- The composite `(p + q) / 2` over leaf parameters at indices `i`, `j`. -/
def halfSumExpr (i j : Nat) : Expr :=
  .binary .div (.binary .add (.ref i) (.ref j)) (.const 2)

/-- The expression `2 * p + 3` over the leaf at index `i`. -/
def twoPplus3 (i : Nat) : Expr :=
  .binary .add (.binary .mul (.const 2) (.ref i)) (.const 3)

/-- The result of the default construction `Parameter("m", "p", 5)`,
with hard and soft limits at the 32-bit float extremes. -/
def pDefault5 : PState :=
  { modelname := "m", name := "p", fullname := "m.p"
    val := 5, default_val := 5, min := -hugeval, max := hugeval
    default_min := -hugeval, default_max := hugeval
    hard_min := -hugeval, hard_max := hugeval
    frozen := false, alwaysfrozen := false, guessed := false, link := none }

/-! ## Basic lemmas about the operations -/

/-- Reading `val` of an unlinked parameter returns the stored `_val`,
whatever the fuel. -/
theorem getVal_nolink (fuel : Nat) (s : Store) (i : Nat)
    (h : (s i).link = none) : getVal fuel s i = .ok (s i).val := by
  cases fuel <;> simp [getVal, evalExpr, evalExprAux, h]

/-- Characterization of a successful `val` assignment. -/
theorem set_val_ok (s : Store) (i : Nat) (x : ℚ)
    (h : (set_val s i x).1 = none) :
    (s i).min ≤ x ∧ x ≤ (s i).max ∧
    (set_val s i x).2 =
      updateStore s i { s i with link := none, val := x, default_val := x } := by
  by_cases h1 : x < (s i).min
  · simp [set_val, h1] at h
  · by_cases h2 : x > (s i).max
    · simp [set_val, h1, h2] at h
    · refine ⟨le_of_not_lt h1, le_of_not_lt h2, ?_⟩
      simp [set_val, h1, h2]
      funext j
      by_cases hj : j = i <;> simp [updateStore, hj]

/-- A failed `val` assignment has exactly one effect: the link reset that
precedes validation. -/
theorem set_val_err (s : Store) (i : Nat) (x : ℚ) (e : Err)
    (h : (set_val s i x).1 = some e) :
    (set_val s i x).2 = updateStore s i { s i with link := none } := by
  by_cases h1 : x < (s i).min
  · simp [set_val, h1]
  · by_cases h2 : x > (s i).max
    · simp [set_val, h1, h2]
    · simp [set_val, h1, h2] at h

/-- A successful `default_val` assignment. -/
theorem set_default_val_ok (s : Store) (i : Nat) (x : ℚ)
    (h : (set_default_val s i x).1 = none) :
    (s i).min ≤ x ∧ x ≤ (s i).max ∧
    (set_default_val s i x).2 =
      updateStore s i { s i with link := none, default_val := x } := by
  by_cases h1 : x < (s i).min
  · simp [set_default_val, h1] at h
  · by_cases h2 : x > (s i).max
    · simp [set_default_val, h1, h2] at h
    · refine ⟨le_of_not_lt h1, le_of_not_lt h2, ?_⟩
      simp [set_default_val, h1, h2]
      funext j
      by_cases hj : j = i <;> simp [updateStore, hj]

theorem updateStore_updateStore (s : Store) (i : Nat) (a b : PState) :
    updateStore (updateStore s i a) i b = updateStore s i b := by
  funext j
  by_cases hj : j = i <;> simp [updateStore, hj]

/-- Running `reset` on an unlinked parameter never raises and copies the default
snapshot into the live fields. -/
theorem reset_nolink (fuel : Nat) (s : Store) (i : Nat)
    (h : (s i).link = none) :
    reset fuel s i =
      (none, updateStore s i
        (if (s i).guessed then
          { s i with min := (s i).default_min, max := (s i).default_max,
                     guessed := false, val := (s i).default_val }
         else { s i with val := (s i).default_val })) := by
  by_cases hg : (s i).guessed <;>
    simp [reset, hg, getDefaultVal, h, updateStore_updateStore]

/-- Successful `min` assignment on an unlinked parameter: either no
repair was needed (`v ≤ val`) and only the bound changed, or the repair
fired and the value, its default and the link were rewritten as well. -/
theorem set_limit_lmin_ok (fuel : Nat) (s : Store) (i : Nat) (v : ℚ)
    (hl : (s i).link = none)
    (h : (set_limit .lmin true fuel s i v).1 = none) :
    (s i).hard_min ≤ v ∧ v ≤ (s i).hard_max ∧
    ((v ≤ (s i).val ∧
       (set_limit .lmin true fuel s i v).2.1 =
         updateStore s i { s i with min := v }) ∨
     ((s i).val < v ∧ (s i).min ≤ v ∧ v ≤ (s i).max ∧
       (set_limit .lmin true fuel s i v).2.1 =
         updateStore s i
           { s i with link := none, val := v, default_val := v, min := v })) := by
  have hg : getVal fuel s i = .ok (s i).val := getVal_nolink fuel s i hl
  by_cases hh1 : v < (s i).hard_min
  · simp [set_limit, hh1] at h
  by_cases hh2 : v > (s i).hard_max
  · simp [set_limit, hh1, hh2] at h
  refine ⟨le_of_not_lt hh1, le_of_not_lt hh2, ?_⟩
  by_cases hrep : v > (s i).val
  · right
    cases hsv : set_val s i v with
    | mk err s' =>
      cases err with
      | some e =>
        exfalso
        simp [set_limit, hh1, hh2, hg, hrep, hsv] at h
      | none =>
        have h1 : (set_val s i v).1 = none := by rw [hsv]
        obtain ⟨hv1, hv2, hst⟩ := set_val_ok s i v h1
        have hs' : s' =
            updateStore s i { s i with link := none, val := v, default_val := v } := by
          rw [← hst, hsv]
        refine ⟨hrep, hv1, hv2, ?_⟩
        simp [set_limit, hh1, hh2, hg, hrep, hsv, hs', setLimitField,
              updateStore_updateStore]
  · left
    refine ⟨le_of_not_lt hrep, ?_⟩
    simp [set_limit, hh1, hh2, hg, hrep, setLimitField]

/-- Successful `max` assignment on an unlinked parameter, mirror image of
`set_limit_lmin_ok`. -/
theorem set_limit_lmax_ok (fuel : Nat) (s : Store) (i : Nat) (v : ℚ)
    (hl : (s i).link = none)
    (h : (set_limit .lmax true fuel s i v).1 = none) :
    (s i).hard_min ≤ v ∧ v ≤ (s i).hard_max ∧
    (((s i).val ≤ v ∧
       (set_limit .lmax true fuel s i v).2.1 =
         updateStore s i { s i with max := v }) ∨
     (v < (s i).val ∧ (s i).min ≤ v ∧ v ≤ (s i).max ∧
       (set_limit .lmax true fuel s i v).2.1 =
         updateStore s i
           { s i with link := none, val := v, default_val := v, max := v })) := by
  have hg : getVal fuel s i = .ok (s i).val := getVal_nolink fuel s i hl
  by_cases hh1 : v < (s i).hard_min
  · simp [set_limit, hh1] at h
  by_cases hh2 : v > (s i).hard_max
  · simp [set_limit, hh1, hh2] at h
  refine ⟨le_of_not_lt hh1, le_of_not_lt hh2, ?_⟩
  by_cases hrep : v < (s i).val
  · right
    cases hsv : set_val s i v with
    | mk err s' =>
      cases err with
      | some e =>
        exfalso
        simp [set_limit, hh1, hh2, hg, hrep, hsv] at h
      | none =>
        have h1 : (set_val s i v).1 = none := by rw [hsv]
        obtain ⟨hv1, hv2, hst⟩ := set_val_ok s i v h1
        have hs' : s' =
            updateStore s i { s i with link := none, val := v, default_val := v } := by
          rw [← hst, hsv]
        refine ⟨hrep, hv1, hv2, ?_⟩
        simp [set_limit, hh1, hh2, hg, hrep, hsv, hs', setLimitField,
              updateStore_updateStore]
  · left
    refine ⟨le_of_not_lt hrep, ?_⟩
    simp [set_limit, hh1, hh2, hg, hrep, setLimitField]

/-- Successful `default_min` assignment: hard checks then plain store. -/
theorem set_limit_ldmin_ok (fuel : Nat) (s : Store) (i : Nat) (v : ℚ)
    (h : (set_limit .ldmin true fuel s i v).1 = none) :
    (s i).hard_min ≤ v ∧ v ≤ (s i).hard_max ∧
    (set_limit .ldmin true fuel s i v).2.1 =
      updateStore s i { s i with default_min := v } := by
  by_cases hh1 : v < (s i).hard_min
  · simp [set_limit, hh1] at h
  by_cases hh2 : v > (s i).hard_max
  · simp [set_limit, hh1, hh2] at h
  exact ⟨le_of_not_lt hh1, le_of_not_lt hh2, by
    simp [set_limit, hh1, hh2, setLimitField]⟩

/-- Successful `default_max` assignment: hard checks then plain store. -/
theorem set_limit_ldmax_ok (fuel : Nat) (s : Store) (i : Nat) (v : ℚ)
    (h : (set_limit .ldmax true fuel s i v).1 = none) :
    (s i).hard_min ≤ v ∧ v ≤ (s i).hard_max ∧
    (set_limit .ldmax true fuel s i v).2.1 =
      updateStore s i { s i with default_max := v } := by
  by_cases hh1 : v < (s i).hard_min
  · simp [set_limit, hh1] at h
  by_cases hh2 : v > (s i).hard_max
  · simp [set_limit, hh1, hh2] at h
  exact ⟨le_of_not_lt hh1, le_of_not_lt hh2, by
    simp [set_limit, hh1, hh2, setLimitField]⟩

/-- Successful construction: the stored fields and the collected bound
facts of `Parameter.__init__`. -/
theorem mkParameter_ok (mname nm : String) (v mn mx hmn hmx : ℚ)
    (fr afr : Bool) (st : PState)
    (h : mkParameter mname nm v mn mx hmn hmx fr afr = .ok st) :
    st.link = none ∧ st.guessed = false ∧
    st.hard_min = hmn ∧ st.hard_max = hmx ∧
    st.min = mn ∧ st.max = mx ∧ st.val = v ∧
    st.default_min = mn ∧ st.default_max = mx ∧ st.default_val = v ∧
    hmn ≤ mn ∧ mn ≤ hmx ∧ hmn ≤ mx ∧ mx ≤ hmx ∧ mn ≤ v ∧ v ≤ mx := by
  unfold mkParameter at h
  by_cases h1 : mn < hmn
  · simp [h1] at h
  by_cases h2 : mn > hmx
  · simp [h1, h2] at h
  by_cases h3 : mx < hmn
  · simp [h1, h2, h3] at h
  by_cases h4 : mx > hmx
  · simp [h1, h2, h3, h4] at h
  by_cases h5 : v < mn
  · simp [h1, h2, h3, h4, h5] at h
  by_cases h6 : v > mx
  · simp [h1, h2, h3, h4, h5, h6] at h
  simp only [h1, h2, h3, h4, h5, h6, if_false, Except.ok.injEq] at h
  subst h
  exact ⟨rfl, rfl, rfl, rfl, rfl, rfl, rfl, rfl, rfl, rfl,
    le_of_not_lt h1, le_of_not_lt h2, le_of_not_lt h3, le_of_not_lt h4,
    le_of_not_lt h5, le_of_not_lt h6⟩

/-! ## Claims C1 and C2 -/

/-- Claim C1 (amended): for any parameter, after a successful `p.val = 7`
followed by `p.reset()`, `p.val` equals `7` — the post-assignment value —
because the `val` setter stores the assigned value into `_default_val` as
well, so `reset` restores the post-assignment value rather than the
default that was current at construction time. -/
theorem C1_reset_restores_assigned_value (s : Store) (i : Nat) (fuel : Nat)
    (h : (set_val s i 7).1 = none) :
    (reset fuel (set_val s i 7).2 i).1 = none ∧
    ((reset fuel (set_val s i 7).2 i).2 i).val = 7 := by
  obtain ⟨-, -, hst⟩ := set_val_ok s i 7 h
  rw [hst]
  have hl : ((updateStore s i { s i with link := none, val := 7, default_val := 7 }) i).link = none := by
    simp
  rw [reset_nolink fuel _ i hl]
  refine ⟨rfl, ?_⟩
  simp only [updateStore_same]
  split <;> rfl

theorem C1_witness :
    (set_val (fun _ => pC1) 0 7).1 = none ∧
    ((reset 1 (set_val (fun _ => pC1) 0 7).2 0).1 = none ∧
      ((reset 1 (set_val (fun _ => pC1) 0 7).2 0).2 0).val = 7) :=
  ⟨by decide, C1_reset_restores_assigned_value (fun _ => pC1) 0 1 (by decide)⟩

/-- Claim C1 counterexample: a parameter constructed with value 2 (hence
`default_val = 2`, never explicitly re-set) is assigned `val = 7` and
then `reset()`: its value is 7, the post-assignment value, not the
construction-time default 2 that the claim predicts. -/
theorem C1_counterexample :
    mkParameter "m" "p" 2 (-1000) 1000 (-1000) 1000 false false = .ok pC1 ∧
    pC1.default_val = 2 ∧
    (set_val (fun _ => pC1) 0 7).1 = none ∧
    (reset 1 (set_val (fun _ => pC1) 0 7).2 0).1 = none ∧
    ((reset 1 (set_val (fun _ => pC1) 0 7).2 0).2 0).val = 7 ∧
    (7 : ℚ) ≠ 2 := by decide

/-- Claim C2 (amended): when a numeric `val` assignment raises
`ParameterErr`, every field of the parameter except `link` is unchanged —
but the link reset performed before validation is not rolled back, so a
linked parameter comes out of the failed assignment with `link = None`.
An unlinked parameter is left entirely unchanged. -/
theorem C2_failed_set_val_only_clears_link (s : Store) (i : Nat) (x : ℚ)
    (e : Err) (h : (set_val s i x).1 = some e) :
    (set_val s i x).2 = updateStore s i { s i with link := none } ∧
    ((s i).link = none → (set_val s i x).2 = s) := by
  refine ⟨set_val_err s i x e h, fun hlink => ?_⟩
  rw [set_val_err s i x e h]
  have h2 : ({ s i with link := none } : PState) = s i := by rw [← hlink]
  rw [h2]
  funext j
  by_cases hj : j = i <;> simp [updateStore, hj]

theorem C2_witness :
    (set_val (fun _ => pC2w) 0 100).2 = (fun _ => pC2w) :=
  (C2_failed_set_val_only_clears_link (fun _ => pC2w) 0 100
    (.edge "m.p" .maximum 10) (by decide)).2 (by decide)

/-- Claim C2 counterexample: a linked parameter with soft range `[0, 10]`
is assigned the out-of-range value 100; the assignment raises
`ParameterErr('edge', ..., 'maximum', 10)`, yet afterwards the parameter's
`link` is `None` instead of its previous link — the failed assignment did
mutate the state, because `_set_val` clears the link before validating. -/
theorem C2_counterexample :
    pC2.link = some (.const 5) ∧
    (set_val (fun _ => pC2) 0 100).1 = some (.edge "m.p" .maximum 10) ∧
    ((set_val (fun _ => pC2) 0 100).2 0).link = none ∧
    ((set_val (fun _ => pC2) 0 100).2 0).link ≠ pC2.link := by decide

/-! ## Claim C4: composite flattening and evaluation -/

/-- Claim C4 (amended): iterating the composite `c = (p + q) / 2` yields, in
order, the `BinaryOpParameter` for the *addition* first, then the leaves
`p` and `q`, then the `ConstantParameter(2)`; the division node `c` itself
is not yielded.  `c.eval()` equals `(p.val + q.val) / 2`. -/
theorem C4_flattening_and_eval (s : Store) (i j : Nat) (fuel : Nat)
    (hi : (s i).link = none) (hj : (s j).link = none) :
    getParts (halfSumExpr i j) =
      [.binary .add (.ref i) (.ref j), .ref i, .ref j, .const 2] ∧
    evalExpr fuel s (halfSumExpr i j) = .ok (((s i).val + (s j).val) / 2) := by
  constructor
  · rfl
  · cases fuel <;> simp [evalExpr, evalExprAux, halfSumExpr, hi, hj, applyBOp]

theorem C4_witness :
    getParts (halfSumExpr 0 1) =
      [.binary .add (.ref 0) (.ref 1), .ref 0, .ref 1, .const 2] ∧
    evalExpr 1 (fun _ => pBase) (halfSumExpr 0 1) =
      .ok ((pBase.val + pBase.val) / 2) :=
  C4_flattening_and_eval (fun _ => pBase) 0 1 1 (by decide) (by decide)

/-- Claim C4 counterexample: the iteration of `c = (p + q) / 2` does not
start with the `BinaryOpParameter` for the division — that node is `c`
itself and is absent from its own iteration; the first yielded element is
the `BinaryOpParameter` for the addition. -/
theorem C4_counterexample :
    getParts (halfSumExpr 0 1) =
      [.binary .add (.ref 0) (.ref 1), .ref 0, .ref 1, .const 2] ∧
    (getParts (halfSumExpr 0 1)).head? ≠ some (halfSumExpr 0 1) ∧
    halfSumExpr 0 1 ∉ getParts (halfSumExpr 0 1) := by decide

/-! ## Claims C5 and C9: the link setter -/

/-- Claim C5 (amended): when the target of a link assignment is a leaf
parameter through whose link chain `self` is reachable (a multi-hop
cycle), `self` is not in the target's iteration closure, and `self` is
not always frozen, the setter does not raise: it severs the offending
downstream link (`link.link = None`) and stores the link. -/
theorem C5_long_cycle_repairs (fuel : Nat) (s : Store) (i j : Nat)
    (haf : (s i).alwaysfrozen = false)
    (hshort : exprHasRef (.ref j) i = false)
    (hcycle : cycleWalk fuel s i (.ref j) = some true) :
    (set_link fuel s i (some (.ref j))).1 = none ∧
    ((set_link fuel s i (some (.ref j))).2 j).link = none ∧
    ((set_link fuel s i (some (.ref j))).2 i).link = some (.ref j) := by
  have hij : j ≠ i := by simpa [exprHasRef] using hshort
  simp [set_link, haf, hshort, hcycle, hij]

theorem C5_witness :
    (set_link 5 sChain 2 (some (.ref 0))).1 = none ∧
    ((set_link 5 sChain 2 (some (.ref 0))).2 0).link = none ∧
    ((set_link 5 sChain 2 (some (.ref 0))).2 2).link = some (.ref 0) :=
  C5_long_cycle_repairs 5 sChain 2 0 (by decide) (by decide) (by decide)

/-- Claim C5 counterexample: completing the multi-hop cycle `A → B → C → A`
on an always-frozen parameter `m.c` raises `ParameterErr('frozennolink')`
instead of repairing the graph: the downstream link `m.a → m.b` is kept
and no link is stored on `m.c`, although a multi-hop cycle exists and the
short-cycle check passes. -/
theorem C5_counterexample :
    exprHasRef (.ref 0) 2 = false ∧
    cycleWalk 5 sChainAF 2 (.ref 0) = some true ∧
    (set_link 5 sChainAF 2 (some (.ref 0))).1 = some (.frozennolink "m.c") ∧
    ((set_link 5 sChainAF 2 (some (.ref 0))).2 0).link = some (.ref 1) ∧
    ((set_link 5 sChainAF 2 (some (.ref 0))).2 2).link = none := by decide

/-- Claim C9 (amended): for a parameter that is not always frozen, a link
assignment whose expression's iteration closure contains the parameter
itself raises `ParameterErr('linkcycle')` and leaves the whole store —
in particular the parameter's `link` — unchanged.  (An always-frozen
parameter instead raises `ParameterErr('frozennolink')`.) -/
theorem C9_self_link_rejected (fuel : Nat) (s : Store) (i : Nat) (e : Expr)
    (haf : (s i).alwaysfrozen = false)
    (hhas : exprHasRef e i = true) :
    set_link fuel s i (some e) = (some .linkcycle, s) ∧
    ((set_link fuel s i (some e)).2 i).link = (s i).link := by
  have h1 : set_link fuel s i (some e) = (some .linkcycle, s) := by
    simp [set_link, haf, hhas]
  exact ⟨h1, by rw [h1]⟩

theorem C9_witness :
    set_link 1 (fun _ => pBase) 0 (some (twoPplus3 0)) =
      (some .linkcycle, fun _ => pBase) ∧
    ((set_link 1 (fun _ => pBase) 0 (some (twoPplus3 0))).2 0).link =
      pBase.link :=
  C9_self_link_rejected 1 (fun _ => pBase) 0 (twoPplus3 0)
    (by decide) (by decide)

/-- Claim C9 counterexample: on an always-frozen parameter with `link None`,
the self-referential assignment `p.link = 2 * p + 3` raises
`ParameterErr` with reason `frozennolink`, not `linkcycle` as the claim
states for every parameter (the link does remain `None`). -/
theorem C9_counterexample :
    pAF.link = none ∧
    exprHasRef (twoPplus3 0) 0 = true ∧
    (set_link 1 (fun _ => pAF) 0 (some (twoPplus3 0))).1 =
      some (.frozennolink "m.p") ∧
    (set_link 1 (fun _ => pAF) 0 (some (twoPplus3 0))).1 ≠
      some Err.linkcycle ∧
    ((set_link 1 (fun _ => pAF) 0 (some (twoPplus3 0))).2 0).link = none := by
  decide

/-! ## Claims C7 and C10: the auto-repair of the limit setters -/

/-- Claim C7 (amended): on a fully constructed, unlinked parameter, setting
`max` to a value below the current `val` (resp. `min` above it) succeeds
with a warning — the value is repaired to the new bound — *provided* the
new bound also lies on the correct side of the opposite soft limit; when
the new `max` is below `min` the nested value assignment raises
`ParameterErr` instead, so the claim's unconditional success fails. -/
theorem C7_limit_narrowing_repair (s : Store) (i : Nat) (v : ℚ) (fuel : Nat)
    (hlink : (s i).link = none)
    (hhmin : (s i).hard_min ≤ v) (hhmax : v ≤ (s i).hard_max) :
    (v < (s i).val → (s i).min ≤ v → (s i).val ≤ (s i).max →
      (set_limit .lmax true fuel s i v).1 = none ∧
      ((set_limit .lmax true fuel s i v).2.1 i).max = v ∧
      ((set_limit .lmax true fuel s i v).2.1 i).val = v ∧
      (set_limit .lmax true fuel s i v).2.2 = true) ∧
    ((s i).val < v → v ≤ (s i).max → (s i).min ≤ (s i).val →
      (set_limit .lmin true fuel s i v).1 = none ∧
      ((set_limit .lmin true fuel s i v).2.1 i).min = v ∧
      ((set_limit .lmin true fuel s i v).2.1 i).val = v ∧
      (set_limit .lmin true fuel s i v).2.2 = true) := by
  have hg : getVal fuel s i = .ok (s i).val := getVal_nolink fuel s i hlink
  constructor
  · intro hlt hminv hvalmax
    have hn1 : ¬ v < (s i).min := not_lt.2 hminv
    have hn2 : ¬ v > (s i).max := not_lt.2 (le_trans (le_of_lt hlt) hvalmax)
    simp [set_limit, not_lt.2 hhmin, not_lt.2 hhmax, hg, hlt, set_val,
          hn1, hn2, setLimitField]
  · intro hlt hvmax hminval
    have hn1 : ¬ v < (s i).min := not_lt.2 (le_trans hminval (le_of_lt hlt))
    have hn2 : ¬ v > (s i).max := not_lt.2 hvmax
    simp [set_limit, not_lt.2 hhmin, not_lt.2 hhmax, hg, hlt, set_val,
          hn1, hn2, setLimitField]

theorem C7_witness :
    ((set_limit .lmax true 1 (fun _ => pBase) 0 3).1 = none ∧
      ((set_limit .lmax true 1 (fun _ => pBase) 0 3).2.1 0).max = 3 ∧
      ((set_limit .lmax true 1 (fun _ => pBase) 0 3).2.1 0).val = 3 ∧
      (set_limit .lmax true 1 (fun _ => pBase) 0 3).2.2 = true) ∧
    ((set_limit .lmin true 1 (fun _ => pBase) 0 7).1 = none ∧
      ((set_limit .lmin true 1 (fun _ => pBase) 0 7).2.1 0).min = 7 ∧
      ((set_limit .lmin true 1 (fun _ => pBase) 0 7).2.1 0).val = 7 ∧
      (set_limit .lmin true 1 (fun _ => pBase) 0 7).2.2 = true) :=
  ⟨(C7_limit_narrowing_repair (fun _ => pBase) 0 3 1 (by decide) (by decide)
      (by decide)).1 (by decide) (by decide) (by decide),
   (C7_limit_narrowing_repair (fun _ => pBase) 0 7 1 (by decide) (by decide)
      (by decide)).2 (by decide) (by decide) (by decide)⟩

/-- Claim C7 counterexample: on the fully constructed parameter with
`min = 4`, `val = 5`, assigning `max = 3` — below the current value and
within the hard limits — does not succeed: the nested value repair raises
`ParameterErr('edge', 'm.p', 'minimum', 4)`. -/
theorem C7_counterexample :
    pMin4.hard_min ≤ 3 ∧ (3 : ℚ) ≤ pMin4.hard_max ∧ (3 : ℚ) < pMin4.val ∧
    (set_limit .lmax true 1 (fun _ => pMin4) 0 3).1 =
      some (.edge "m.p" .minimum 4) := by decide

/-- Claim C10: when the auto-repair of the `min` (resp. `max`) setter fires
and succeeds, the whole operation's effect is exactly: the targeted limit
field, `_val` and `_default_val` are set to the new bound and the link is
cleared (the repair assigns through the `val` property); every other
field of the parameter and every other parameter are unchanged, and a
warning is emitted. -/
theorem C10_repair_frame (s : Store) (i : Nat) (v cur : ℚ) (fuel : Nat)
    (hget : getVal fuel s i = .ok cur)
    (hhmin : (s i).hard_min ≤ v) (hhmax : v ≤ (s i).hard_max)
    (hmin : (s i).min ≤ v) (hmax : v ≤ (s i).max) :
    (cur < v →
      set_limit .lmin true fuel s i v =
        (none,
         updateStore s i
           { s i with link := none, val := v, default_val := v, min := v },
         true)) ∧
    (v < cur →
      set_limit .lmax true fuel s i v =
        (none,
         updateStore s i
           { s i with link := none, val := v, default_val := v, max := v },
         true)) := by
  have hn1 : ¬ v < (s i).min := not_lt.2 hmin
  have hn2 : ¬ v > (s i).max := not_lt.2 hmax
  constructor
  · intro hlt
    simp [set_limit, not_lt.2 hhmin, not_lt.2 hhmax, hget, hlt, set_val,
          hn1, hn2, setLimitField, updateStore_updateStore]
  · intro hlt
    simp [set_limit, not_lt.2 hhmin, not_lt.2 hhmax, hget, hlt, set_val,
          hn1, hn2, setLimitField, updateStore_updateStore]

theorem C10_witness :
    set_limit .lmin true 1 (fun _ => pL5) 0 7 =
      (none,
       updateStore (fun _ => pL5) 0
         { pL5 with link := none, val := 7, default_val := 7, min := 7 },
       true) :=
  (C10_repair_frame (fun _ => pL5) 0 7 5 1 (by decide) (by decide)
    (by decide) (by decide) (by decide)).1 (by decide)

/-! ## Claim C8: out-of-range link reads -/

/-- Claim C8: writing an in-range value to `a` succeeds and does not touch
the linked parameter `b`; when `b`'s link expression then evaluates to a
value above `b.max` (resp. below `b.min`), the *read* of `b.val` raises
`ParameterErr('edge', b.fullname, 'maximum'|'minimum', bound)` — it never
silently clamps. -/
theorem C8_link_read_raises (s : Store) (a b : Nat) (e : Expr)
    (x w : ℚ) (fuel : Nat)
    (hab : a ≠ b) (hbl : (s b).link = some e)
    (hx1 : (s a).min ≤ x) (hx2 : x ≤ (s a).max)
    (hmm : (s b).min ≤ (s b).max) :
    (set_val s a x).1 = none ∧
    (set_val s a x).2 b = s b ∧
    (evalExpr fuel (set_val s a x).2 e = .ok w →
      (w > (s b).max →
        getVal (fuel + 1) (set_val s a x).2 b =
          .error (.edge (s b).fullname .maximum (s b).max)) ∧
      (w < (s b).min →
        getVal (fuel + 1) (set_val s a x).2 b =
          .error (.edge (s b).fullname .minimum (s b).min))) := by
  have h1 : (set_val s a x).1 = none := by
    simp [set_val, not_lt.2 hx1, not_lt.2 hx2]
  obtain ⟨-, -, hst⟩ := set_val_ok s a x h1
  have hfb : (set_val s a x).2 b = s b := by
    rw [hst]; exact updateStore_other _ _ _ _ (Ne.symm hab)
  refine ⟨h1, hfb, fun hev => ⟨fun hw => ?_, fun hw => ?_⟩⟩
  · have hnm : ¬ w < (s b).min := not_lt.2 (le_trans hmm (le_of_lt hw))
    simp [getVal, evalExpr, evalExprAux, hfb, hbl, hev, hw, hnm]
  · simp [getVal, evalExpr, evalExprAux, hfb, hbl, hev, hw]

theorem C8_witness :
    (set_val sC8 0 1).1 = none ∧
    (set_val sC8 0 1).2 1 = sC8 1 ∧
    getVal 1 (set_val sC8 0 1).2 1 = .error (.edge "m.b" .maximum 8) := by
  obtain ⟨h1, h2, h3⟩ := C8_link_read_raises sC8 0 1 (.const 9) 1 9 0
    (by decide) (by decide) (by decide) (by decide) (by decide)
  exact ⟨h1, h2, (h3 (by decide)).1 (by decide)⟩

/-! ## Invariant preservation (claims C3 and C6) -/

theorem presC3_set_val (i : Nat) (x : ℚ) :
    PresInv InvC3 i (fun s => set_val s i x) := by
  intro s hI h
  obtain ⟨hl, hmn, hmx, hvl, hdmn, hdmx, hdvl⟩ := hI
  obtain ⟨hx1, hx2, hst⟩ := set_val_ok s i x h
  show InvC3 ((set_val s i x).2 i)
  rw [hst]
  simp only [updateStore_same]
  exact ⟨rfl, hmn, hmx, ⟨le_trans hmn.1 hx1, le_trans hx2 hmx.2⟩, hdmn, hdmx,
         ⟨le_trans hmn.1 hx1, le_trans hx2 hmx.2⟩⟩

theorem presC3_set_default_val (i : Nat) (x : ℚ) :
    PresInv InvC3 i (fun s => set_default_val s i x) := by
  intro s hI h
  obtain ⟨hl, hmn, hmx, hvl, hdmn, hdmx, hdvl⟩ := hI
  obtain ⟨hx1, hx2, hst⟩ := set_default_val_ok s i x h
  show InvC3 ((set_default_val s i x).2 i)
  rw [hst]
  simp only [updateStore_same]
  exact ⟨rfl, hmn, hmx, hvl, hdmn, hdmx,
         ⟨le_trans hmn.1 hx1, le_trans hx2 hmx.2⟩⟩

theorem presC3_set_min (fuel i : Nat) (v : ℚ) :
    PresInv InvC3 i (fun s => set_min fuel s i v) := by
  intro s hI h
  obtain ⟨hv1, hv2, hcase⟩ := set_limit_lmin_ok fuel s i v hI.1 h
  obtain ⟨hl, hmn, hmx, hvl, hdmn, hdmx, hdvl⟩ := hI
  show InvC3 ((set_min fuel s i v).2 i)
  have hproj : (set_min fuel s i v).2 = (set_limit .lmin true fuel s i v).2.1 := rfl
  rcases hcase with ⟨hle, hst⟩ | ⟨hlt, hmn2, hmx2, hst⟩
  · rw [hproj, hst]
    simp only [updateStore_same]
    exact ⟨hl, ⟨hv1, hv2⟩, hmx, hvl, hdmn, hdmx, hdvl⟩
  · rw [hproj, hst]
    simp only [updateStore_same]
    exact ⟨rfl, ⟨hv1, hv2⟩, hmx, ⟨hv1, le_trans hmx2 hmx.2⟩, hdmn, hdmx,
           ⟨hv1, le_trans hmx2 hmx.2⟩⟩

theorem presC3_set_max (fuel i : Nat) (v : ℚ) :
    PresInv InvC3 i (fun s => set_max fuel s i v) := by
  intro s hI h
  obtain ⟨hv1, hv2, hcase⟩ := set_limit_lmax_ok fuel s i v hI.1 h
  obtain ⟨hl, hmn, hmx, hvl, hdmn, hdmx, hdvl⟩ := hI
  show InvC3 ((set_max fuel s i v).2 i)
  have hproj : (set_max fuel s i v).2 = (set_limit .lmax true fuel s i v).2.1 := rfl
  rcases hcase with ⟨hle, hst⟩ | ⟨hlt, hmn2, hmx2, hst⟩
  · rw [hproj, hst]
    simp only [updateStore_same]
    exact ⟨hl, hmn, ⟨hv1, hv2⟩, hvl, hdmn, hdmx, hdvl⟩
  · rw [hproj, hst]
    simp only [updateStore_same]
    exact ⟨rfl, hmn, ⟨hv1, hv2⟩, ⟨le_trans hmn.1 hmn2, hv2⟩, hdmn, hdmx,
           ⟨le_trans hmn.1 hmn2, hv2⟩⟩

theorem presC3_set_default_min (fuel i : Nat) (v : ℚ) :
    PresInv InvC3 i (fun s => set_default_min fuel s i v) := by
  intro s hI h
  obtain ⟨hv1, hv2, hst⟩ := set_limit_ldmin_ok fuel s i v h
  obtain ⟨hl, hmn, hmx, hvl, hdmn, hdmx, hdvl⟩ := hI
  show InvC3 ((set_default_min fuel s i v).2 i)
  have hproj : (set_default_min fuel s i v).2 =
      (set_limit .ldmin true fuel s i v).2.1 := rfl
  rw [hproj, hst]
  simp only [updateStore_same]
  exact ⟨hl, hmn, hmx, hvl, ⟨hv1, hv2⟩, hdmx, hdvl⟩

theorem presC3_set_default_max (fuel i : Nat) (v : ℚ) :
    PresInv InvC3 i (fun s => set_default_max fuel s i v) := by
  intro s hI h
  obtain ⟨hv1, hv2, hst⟩ := set_limit_ldmax_ok fuel s i v h
  obtain ⟨hl, hmn, hmx, hvl, hdmn, hdmx, hdvl⟩ := hI
  show InvC3 ((set_default_max fuel s i v).2 i)
  have hproj : (set_default_max fuel s i v).2 =
      (set_limit .ldmax true fuel s i v).2.1 := rfl
  rw [hproj, hst]
  simp only [updateStore_same]
  exact ⟨hl, hmn, hmx, hvl, hdmn, ⟨hv1, hv2⟩, hdvl⟩

theorem presC3_set_frozen (i : Nat) (b : Bool) :
    PresInv InvC3 i (fun s => set_frozen s i b) := by
  intro s hI h
  obtain ⟨hl, hmn, hmx, hvl, hdmn, hdmx, hdvl⟩ := hI
  show InvC3 ((set_frozen s i b).2 i)
  by_cases hc : (s i).alwaysfrozen && !b
  · simp [set_frozen, hc] at h
  · simp only [set_frozen, hc, if_false, Bool.false_eq_true, updateStore_same]
    exact ⟨hl, hmn, hmx, hvl, hdmn, hdmx, hdvl⟩

theorem presC3_reset (fuel i : Nat) :
    PresInv InvC3 i (fun s => reset fuel s i) := by
  intro s hI h
  obtain ⟨hl, hmn, hmx, hvl, hdmn, hdmx, hdvl⟩ := hI
  show InvC3 ((reset fuel s i).2 i)
  rw [reset_nolink fuel s i hl]
  simp only [updateStore_same]
  split
  · exact ⟨hl, hdmn, hdmx, hdvl, hdmn, hdmx, hdvl⟩
  · exact ⟨hl, hmn, hmx, hdvl, hdmn, hdmx, hdvl⟩

theorem condStep_pres (P : PState → Prop) (i : Nat) {α : Type} (o : Option α)
    (cond : Store → α → Bool) (act : Store → α → Option Err × Store)
    (hact : ∀ x, PresInv P i (fun s => act s x)) :
    PresInv P i (condStep o cond act) := by
  intro s hP h
  cases o with
  | none => simpa [condStep] using hP
  | some x =>
    by_cases hc : cond s x
    · simp only [condStep, hc, if_true] at h ⊢
      exact hact x s hP h
    · simpa [condStep, hc] using hP

theorem runSteps_pres (P : PState → Prop) (i : Nat) :
    ∀ L : List (Store → Option Err × Store),
      (∀ g ∈ L, PresInv P i g) → PresInv P i (runSteps L) := by
  intro L
  induction L with
  | nil => intro _ s hP h; simpa [runSteps] using hP
  | cons g rest ih =>
    intro hmem s hP h
    have hg := hmem g (List.mem_cons_self g rest)
    cases hgs : g s with
    | mk err s' =>
      cases err with
      | some e => simp [runSteps, bindOp, hgs] at h
      | none =>
        have hP' : P (s' i) := by
          have hx := hg s hP (by rw [hgs])
          rwa [hgs] at hx
        have h' : (runSteps rest s').1 = none := by
          simpa [runSteps, bindOp, hgs] using h
        have := ih (fun g' hgm => hmem g' (List.mem_cons_of_mem _ hgm)) s' hP' h'
        simpa [runSteps, bindOp, hgs] using this

theorem presC3_runOp (fuel i : Nat) (op : POp) :
    PresInv InvC3 i (fun s => runOp fuel s i op) := by
  cases op with
  | opVal x => exact presC3_set_val i x
  | opMin x => exact presC3_set_min fuel i x
  | opMax x => exact presC3_set_max fuel i x
  | opDefaultVal x => exact presC3_set_default_val i x
  | opDefaultMin x => exact presC3_set_default_min fuel i x
  | opDefaultMax x => exact presC3_set_default_max fuel i x
  | opReset => exact presC3_reset fuel i
  | opSet v mn mx dv dmn dmx frz =>
    show PresInv InvC3 i (fun s => runSet fuel s i v mn mx dv dmn dmx frz)
    have : PresInv InvC3 i (runSteps (setSteps fuel i v mn mx dv dmn dmx frz)) := by
      apply runSteps_pres
      intro g hg
      simp only [setSteps, List.mem_cons, List.not_mem_nil, or_false] at hg
      rcases hg with h | h | h | h | h | h | h | h | h | h | h <;> subst h
      · exact condStep_pres _ _ _ _ _ (fun x => presC3_set_max fuel i x)
      · exact condStep_pres _ _ _ _ _ (fun x => presC3_set_default_max fuel i x)
      · exact condStep_pres _ _ _ _ _ (fun x => presC3_set_min fuel i x)
      · exact condStep_pres _ _ _ _ _ (fun x => presC3_set_default_min fuel i x)
      · exact condStep_pres _ _ _ _ _ (fun x => presC3_set_val i x)
      · exact condStep_pres _ _ _ _ _ (fun x => presC3_set_default_val i x)
      · exact condStep_pres _ _ _ _ _ (fun x => presC3_set_min fuel i x)
      · exact condStep_pres _ _ _ _ _ (fun x => presC3_set_max fuel i x)
      · exact condStep_pres _ _ _ _ _ (fun x => presC3_set_default_min fuel i x)
      · exact condStep_pres _ _ _ _ _ (fun x => presC3_set_default_max fuel i x)
      · exact condStep_pres _ _ _ _ _ (fun x => presC3_set_frozen i x)
    exact this

theorem runOps_pres (P : PState → Prop) (i fuel : Nat) :
    ∀ L : List POp,
      (∀ op ∈ L, PresInv P i (fun s => runOp fuel s i op)) →
      ∀ s, P (s i) → (runOps fuel s i L).1 = none →
        P ((runOps fuel s i L).2 i) := by
  intro L
  induction L with
  | nil => intro _ s hP h; simpa [runOps] using hP
  | cons op rest ih =>
    intro hmem s hP h
    have hop := hmem op (List.mem_cons_self op rest)
    cases hos : runOp fuel s i op with
    | mk err s' =>
      cases err with
      | some e => simp [runOps, bindOp, hos] at h
      | none =>
        have hop' : ∀ t, P (t i) → (runOp fuel t i op).1 = none →
            P ((runOp fuel t i op).2 i) := hop
        have hP' : P (s' i) := by
          have hx := hop' s hP (by rw [hos])
          rwa [hos] at hx
        have h' : (runOps fuel s' i rest).1 = none := by
          simpa [runOps, bindOp, hos] using h
        have := ih (fun op' hm => hmem op' (List.mem_cons_of_mem _ hm)) s' hP' h'
        simpa [runOps, bindOp, hos] using this

/-- Construction establishes `InvC3`. -/
theorem mk_InvC3 (mname nm : String) (v mn mx hmn hmx : ℚ) (fr afr : Bool)
    (st : PState) (h : mkParameter mname nm v mn mx hmn hmx fr afr = .ok st) :
    InvC3 st := by
  obtain ⟨hl, -, e1, e2, e3, e4, e5, e6, e7, e8, i1, i2, i3, i4, i5, i6⟩ :=
    mkParameter_ok mname nm v mn mx hmn hmx fr afr st h
  unfold InvC3
  rw [e1, e2, e3, e4, e5, e6, e7, e8]
  exact ⟨hl, ⟨i1, i2⟩, ⟨i3, i4⟩, ⟨le_trans i1 i5, le_trans i6 i4⟩,
         ⟨i1, i2⟩, ⟨i3, i4⟩, ⟨le_trans i1 i5, le_trans i6 i4⟩⟩

/-- Construction establishes `InvC6`. -/
theorem mk_InvC6 (mname nm : String) (v mn mx hmn hmx : ℚ) (fr afr : Bool)
    (st : PState) (h : mkParameter mname nm v mn mx hmn hmx fr afr = .ok st) :
    InvC6 st := by
  obtain ⟨hl, -, e1, e2, e3, e4, e5, -, -, -, i1, -, -, i4, i5, i6⟩ :=
    mkParameter_ok mname nm v mn mx hmn hmx fr afr st h
  unfold InvC6
  rw [e1, e2, e3, e4, e5]
  exact ⟨hl, i1, i5, i6, i4⟩

theorem presC6_set_val (i : Nat) (x : ℚ) :
    PresInv InvC6 i (fun s => set_val s i x) := by
  intro s hI h
  obtain ⟨hl, h1, h2, h3, h4⟩ := hI
  obtain ⟨hx1, hx2, hst⟩ := set_val_ok s i x h
  show InvC6 ((set_val s i x).2 i)
  rw [hst]
  simp only [updateStore_same]
  exact ⟨rfl, h1, hx1, hx2, h4⟩

theorem presC6_set_min (fuel i : Nat) (v : ℚ) :
    PresInv InvC6 i (fun s => set_min fuel s i v) := by
  intro s hI h
  obtain ⟨hv1, hv2, hcase⟩ := set_limit_lmin_ok fuel s i v hI.1 h
  obtain ⟨hl, h1, h2, h3, h4⟩ := hI
  show InvC6 ((set_min fuel s i v).2 i)
  have hproj : (set_min fuel s i v).2 = (set_limit .lmin true fuel s i v).2.1 := rfl
  rcases hcase with ⟨hle, hst⟩ | ⟨hlt, hmn2, hmx2, hst⟩
  · rw [hproj, hst]
    simp only [updateStore_same]
    exact ⟨hl, hv1, hle, h3, h4⟩
  · rw [hproj, hst]
    simp only [updateStore_same]
    exact ⟨rfl, hv1, le_refl v, hmx2, h4⟩

theorem presC6_set_max (fuel i : Nat) (v : ℚ) :
    PresInv InvC6 i (fun s => set_max fuel s i v) := by
  intro s hI h
  obtain ⟨hv1, hv2, hcase⟩ := set_limit_lmax_ok fuel s i v hI.1 h
  obtain ⟨hl, h1, h2, h3, h4⟩ := hI
  show InvC6 ((set_max fuel s i v).2 i)
  have hproj : (set_max fuel s i v).2 = (set_limit .lmax true fuel s i v).2.1 := rfl
  rcases hcase with ⟨hle, hst⟩ | ⟨hlt, hmn2, hmx2, hst⟩
  · rw [hproj, hst]
    simp only [updateStore_same]
    exact ⟨hl, h1, h2, hle, hv2⟩
  · rw [hproj, hst]
    simp only [updateStore_same]
    exact ⟨rfl, h1, hmn2, le_refl v, hv2⟩

/-! ## Claims C3 and C6: the invariant theorems -/

/-- Claim C3 (amended): starting from a successful construction, after every
successful sequence of the public operations (`val`/`min`/`max`/
`default_val`/`default_min`/`default_max` assignments, `set()`, `reset()`)
each scalar field — in particular `default_min`, `default_val` and
`default_max` — lies within `[hard_min, hard_max]`, and the parameter
stays unlinked; the chained ordering
`default_min ≤ default_val ≤ default_max` is *not* maintained. -/
theorem C3_default_fields_within_hard_limits (mname pname : String)
    (v mn mx hmn hmx : ℚ) (fr afr : Bool) (st : PState)
    (ops : List POp) (fuel : Nat)
    (hmk : mkParameter mname pname v mn mx hmn hmx fr afr = .ok st)
    (hrun : (runOps fuel (fun _ => st) 0 ops).1 = none) :
    InvC3 ((runOps fuel (fun _ => st) 0 ops).2 0) := by
  have hI : InvC3 st := mk_InvC3 mname pname v mn mx hmn hmx fr afr st hmk
  exact runOps_pres InvC3 0 fuel ops (fun op _ => presC3_runOp fuel 0 op)
    (fun _ => st) hI hrun

theorem C3_witness :
    InvC3 ((runOps 1 (fun _ => pBase) 0
      [.opVal 3, .opSet (some 7) (some 1) (some 9) none none none (some true),
       .opReset]).2 0) :=
  C3_default_fields_within_hard_limits "m" "p" 5 0 10 (-1000) 1000 false false
    pBase
    [.opVal 3, .opSet (some 7) (some 1) (some 9) none none none (some true),
     .opReset]
    1 (by decide) (by decide)

/-- Claim C3 counterexample: on the freshly constructed parameter
`Parameter("m", "p", 5, min=0, max=10)`, the successful assignments
`default_min = 6` and `default_max = 4` (each only hard-limit checked)
leave `default_min = 6 > default_val = 5 > default_max = 4`, violating
the claimed chain `default_min ≤ default_val ≤ default_max`. -/
theorem C3_counterexample :
    mkParameter "m" "p" 5 0 10 (-1000) 1000 false false = .ok pBase ∧
    (runOps 1 (fun _ => pBase) 0 [.opDefaultMin 6, .opDefaultMax 4]).1 = none ∧
    ((runOps 1 (fun _ => pBase) 0 [.opDefaultMin 6, .opDefaultMax 4]).2 0).default_min = 6 ∧
    ((runOps 1 (fun _ => pBase) 0 [.opDefaultMin 6, .opDefaultMax 4]).2 0).default_val = 5 ∧
    ((runOps 1 (fun _ => pBase) 0 [.opDefaultMin 6, .opDefaultMax 4]).2 0).default_max = 4 ∧
    ¬(((runOps 1 (fun _ => pBase) 0 [.opDefaultMin 6, .opDefaultMax 4]).2 0).default_min ≤
      ((runOps 1 (fun _ => pBase) 0 [.opDefaultMin 6, .opDefaultMax 4]).2 0).default_val) ∧
    ¬(((runOps 1 (fun _ => pBase) 0 [.opDefaultMin 6, .opDefaultMax 4]).2 0).default_val ≤
      ((runOps 1 (fun _ => pBase) 0 [.opDefaultMin 6, .opDefaultMax 4]).2 0).default_max) := by
  decide

/-- Claim C6 (amended): the bound invariant
`hard_min ≤ min ≤ val ≤ max ≤ hard_max` (with `link None`) is established
by construction and preserved by every successful `val`, `min` or `max`
mutation — that is, it holds for parameters whose mutation history
consists of those operations; `reset()` is outside this set and can break
it. -/
theorem C6_bound_invariant_preserved (mname pname : String)
    (v mn mx hmn hmx : ℚ) (fr afr : Bool) (st : PState)
    (ops : List POp) (fuel : Nat)
    (hmk : mkParameter mname pname v mn mx hmn hmx fr afr = .ok st)
    (hops : ∀ op ∈ ops, isValMinMax op)
    (hrun : (runOps fuel (fun _ => st) 0 ops).1 = none) :
    InvC6 ((runOps fuel (fun _ => st) 0 ops).2 0) := by
  have hI : InvC6 st := mk_InvC6 mname pname v mn mx hmn hmx fr afr st hmk
  refine runOps_pres InvC6 0 fuel ops ?_ (fun _ => st) hI hrun
  intro op hm
  have hops' := hops op hm
  cases op with
  | opVal x => exact presC6_set_val 0 x
  | opMin x => exact presC6_set_min fuel 0 x
  | opMax x => exact presC6_set_max fuel 0 x
  | opDefaultVal x => exact hops'.elim
  | opDefaultMin x => exact hops'.elim
  | opDefaultMax x => exact hops'.elim
  | opReset => exact hops'.elim
  | opSet v' mn' mx' dv' dmn' dmx' fr' => exact hops'.elim

theorem C6_witness :
    InvC6 ((runOps 1 (fun _ => pDefault5) 0
      [.opMin 0, .opMax 10, .opVal 5]).2 0) :=
  C6_bound_invariant_preserved "m" "p" 5 (-hugeval) hugeval (-hugeval) hugeval
    false false pDefault5 [.opMin 0, .opMax 10, .opVal 5] 1
    (by decide) (by decide) (by decide)

/-- Claim C6 counterexample: construct with value 2 in `[0, 10]`, set
`default_val = 5`, narrow `max` to 3 (no repair: 3 > 2), `reset()` (which
restores `val = 5 > max = 3` unchecked) and then successfully assign
`min = 1` — a `min` mutation after which `val ≤ max` still fails, so the
claimed invariant does not hold after every successful
`val`/`min`/`max` mutation of a parameter with `link None`. -/
theorem C6_counterexample :
    mkParameter "m" "p" 2 0 10 (-1000) 1000 false false = .ok pV2 ∧
    (runOps 2 (fun _ => pV2) 0
      [.opDefaultVal 5, .opMax 3, .opReset, .opMin 1]).1 = none ∧
    isValMinMax (POp.opMin 1) ∧
    ((runOps 2 (fun _ => pV2) 0
      [.opDefaultVal 5, .opMax 3, .opReset, .opMin 1]).2 0).link = none ∧
    ¬(((runOps 2 (fun _ => pV2) 0
      [.opDefaultVal 5, .opMax 3, .opReset, .opMin 1]).2 0).val ≤
      ((runOps 2 (fun _ => pV2) 0
        [.opDefaultVal 5, .opMax 3, .opReset, .opMin 1]).2 0).max) := by decide


end Sherpa
